import Mathlib

/-!
# Verification of the sikkimjobs ingestion core

Shallow embedding of the identity / deduplication / error-classification /
normalization subsystem of the `sikkimjobs` scraper backend
(`backend/firestoreService.js`, the error-handler module,
`backend/normalizer.js`, `backend/scraper.js`), together with theorems
settling the frozen specification claims.

Modelling conventions:
- JavaScript strings are Lean `String`s (ASCII inputs; `toUpperCase` /
  `toLowerCase` are modelled per-character on ASCII, which is exactly what
  they do on the inputs this program handles).
- A possibly-`null`/`undefined` string argument is `Option String`; the
  JavaScript truthiness test `if (!s)` treats `none` and the empty string
  as falsy.
- Instants are epoch milliseconds (`Nat`); a calendar date parses to its
  UTC-midnight instant, and `toISOString` is injective on instants so a
  stored ISO string is represented by its instant.
- Fallible operations return `Except`; the document store is a list of
  keys (for existence checks) or an association list of documents (for
  merge semantics).
-/

/-! ## Character and string primitives (JS regex semantics) -/

/-- The whitespace class `\s` of JavaScript regular expressions, restricted
to the ASCII range: space, tab, line feed, vertical tab, form feed,
carriage return. -/
def isJsWs (c : Char) : Bool :=
  c = ' ' || c = '\t' || c = '\n' || c = '\x0b' || c = '\x0c' || c = '\r'

/-- ASCII `toUpperCase`: maps `a`–`z` to `A`–`Z`, leaves everything else
unchanged (what JavaScript's `String.prototype.toUpperCase` does on the
ASCII inputs this program handles). -/
def jsUpChar (c : Char) : Char :=
  if 'a' ≤ c && c ≤ 'z' then Char.ofNat (c.toNat - 32) else c

/-- ASCII `toLowerCase`. -/
def jsLowChar (c : Char) : Char :=
  if 'A' ≤ c && c ≤ 'Z' then Char.ofNat (c.toNat + 32) else c

def jsUpper (s : String) : String := String.mk (s.toList.map jsUpChar)

def jsLower (s : String) : String := String.mk (s.toList.map jsLowChar)

/-- JS `String.prototype.trim` on a character list: strip leading and
trailing whitespace. -/
def trimChars (l : List Char) : List Char :=
  ((l.dropWhile isJsWs).reverse.dropWhile isJsWs).reverse

/-- Replace every maximal run of whitespace by the single character `r`
(the JS replace `/\s+/g → r`). The flag records whether the previous
character was inside a whitespace run. -/
def collapseWsAux (r : Char) : List Char → Bool → List Char
  | [], _ => []
  | c :: rest, inRun =>
    if isJsWs c then
      if inRun then collapseWsAux r rest true
      else r :: collapseWsAux r rest true
    else c :: collapseWsAux r rest false

def collapseWs (r : Char) (l : List Char) : List Char := collapseWsAux r l false

/-- Delete every whitespace character (the JS replace `/\s+/g → ''`). -/
def stripWs (l : List Char) : List Char := l.filter (fun c => !(isJsWs c))

/-- Does `pat` occur at the head of `l`? -/
def headMatches : List Char → List Char → Bool
  | [], _ => true
  | _ :: _, [] => false
  | p :: ps, c :: cs => p = c && headMatches ps cs

/-- Does `pat` occur anywhere in `l`? (JS `String.prototype.includes`.) -/
def containsL (pat : List Char) : List Char → Bool
  | [] => pat.isEmpty
  | c :: rest => headMatches pat (c :: rest) || containsL pat rest

/-- `hay.includes(pat)` of JavaScript. -/
def containsStr (hay pat : String) : Bool := containsL pat.toList hay.toList

/-- The JS regex test `/5\d{2}/.test(s)`: some position holds the literal
`5` followed by two decimal digits. -/
def has5xx : List Char → Bool
  | c1 :: c2 :: c3 :: rest =>
    (c1 = '5' && c2.isDigit && c3.isDigit) || has5xx (c2 :: c3 :: rest)
  | _ => false

/-- JS truthiness of a nullable string: `null`/`undefined` and `""` are
falsy. -/
def jsTruthy : Option String → Bool
  | none => false
  | some s => s ≠ ""

/-! ## `backend/firestoreService.js` — identity resolution -/

namespace FirestoreService

/-- Character kept by the regex class `[A-Z0-9 slash dash]` of
`normalizeAdvtNo`. -/
def keepAdvtChar (c : Char) : Bool :=
  ('A' ≤ c && c ≤ 'Z') || c.isDigit || c = '/' || c = '-'

/-- Character kept by the regex class `[A-Z0-9/_-]` used inline in
`checkDuplicate` (note: it additionally keeps `_`). -/
def keepDupChar (c : Char) : Bool := keepAdvtChar c || c = '_'

/-- Map the separators `/` and `-` to `_` (the global replace of the class
`[slash dash]` by `_`). -/
def sepToUnderscore (c : Char) : Char := if c = '/' || c = '-' then '_' else c

/-- `normalizeAdvtNo` of `firestoreService.js`: uppercase, strip all
whitespace, drop characters outside `[A-Z0-9 slash dash]`, then map `/` and `-`
to `_`. -/
def normalizeAdvtNo (s : String) : String :=
  String.mk ((((s.toList.map jsUpChar) |> stripWs).filter keepAdvtChar).map sepToUnderscore)

/-- `generateFallbackId`/`fallbackId` of `firestoreService.js`: the date
with slashes deleted (or the literal `NODATE`), and the post name
uppercased, restricted to `[A-Z0-9 ]`, trimmed, whitespace-runs replaced
by `_`, cut to 30 characters; joined as `SPSC_<date>_<title>`. -/
def fallbackId (postName : String) (issuedDate : Option String) : String :=
  let date := match issuedDate with
    | some d => if d ≠ "" then String.mk (d.toList.filter (fun c => c ≠ '/')) else "NODATE"
    | none => "NODATE"
  let title := String.mk
    ((collapseWs '_' (trimChars ((postName.toList.map jsUpChar).filter
      (fun c => ('A' ≤ c && c ≤ 'Z') || c.isDigit || c = ' ')))).take 30)
  "SPSC_" ++ date ++ "_" ++ title

/-- `generateDocId` of `firestoreService.js`: the primary path normalizes
`advtNo` whenever it is truthy with a non-blank trim; otherwise the
fallback identity is synthesized. (There is no check for the `SPSC_`
fallback prefix.) -/
def generateDocId (advtNo : Option String) (postName : String)
    (issuedDate : Option String) : String :=
  match advtNo with
  | some a => if a ≠ "" && String.mk (trimChars a.toList) ≠ "" then normalizeAdvtNo a
      else fallbackId postName issuedDate
  | none => fallbackId postName issuedDate

/-- The document id computed inline by `checkDuplicate`: like
`normalizeAdvtNo` but with `_` also kept by the character filter. -/
def dupKey (s : String) : String :=
  String.mk ((((s.toList.map jsUpChar) |> stripWs).filter keepDupChar).map sepToUnderscore)

/-- `checkDuplicate` of `firestoreService.js`. It receives only `advtNo`
(callers pass postName/issuedDate too, but the parameter list ignores
them), returns `false` outright when `advtNo` is falsy, and otherwise
looks up `dupKey advtNo` among the existing document ids (`store`). -/
def checkDuplicate (advtNo : Option String) (store : List String) : Bool :=
  match advtNo with
  | none => false
  | some a => if a = "" then false else store.contains (dupKey a)

/-- A Firestore field value, as much of it as the saved job documents use.
`serverTimestamp t` stands for the sentinel `FieldValue.serverTimestamp()`
resolved to the server instant `t`. -/
inductive FsValue where
  | str (s : String)
  | boolean (b : Bool)
  | num (n : Int)
  | null
  | serverTimestamp (t : Nat)
  deriving DecidableEq, Repr

/-- A Firestore document: an association of field names to values. -/
abbrev FsDoc := List (String × FsValue)

/-- Set one field of a document, replacing an existing entry for the same
name (insertion order of new names preserved, as Firestore merge does). -/
def setField (doc : FsDoc) (k : String) (v : FsValue) : FsDoc :=
  match doc with
  | [] => [(k, v)]
  | (k', v') :: rest => if k' = k then (k, v) :: rest else (k', v') :: setField rest k v

/-- Look up one field of a document. -/
def getField (doc : FsDoc) (k : String) : Option FsValue :=
  match doc with
  | [] => none
  | (k', v) :: rest => if k' = k then some v else getField rest k

/-- `set(data, { merge: true })`: every field present in `data` overwrites
the stored field of the same name; stored fields not mentioned by `data`
are retained. -/
def mergeSet (old data : FsDoc) : FsDoc :=
  data.foldl (fun acc kv => setField acc kv.1 kv.2) old

/-- The `jobs` collection: document ids mapped to documents. -/
abbrev FsStore := List (String × FsDoc)

def storeGet (store : FsStore) (id : String) : Option FsDoc :=
  match store with
  | [] => none
  | (id', d) :: rest => if id' = id then some d else storeGet rest id

def storeSet (store : FsStore) (id : String) (d : FsDoc) : FsStore :=
  match store with
  | [] => [(id, d)]
  | (id', d') :: rest => if id' = id then (id, d) :: rest else (id', d') :: storeSet rest id d

/-- Read a string field of the job object as the nullable string the JS
code would see (`null`, a missing field and a non-string all read as an
absent advertisement number for `generateDocId`; only `str` yields a
string). -/
def getStrField (doc : FsDoc) (k : String) : Option String :=
  match getField doc k with
  | some (FsValue.str s) => some s
  | _ => none

/-- `saveJob` of `firestoreService.js`: compute the document id from the
job's `advtNo`/`postName`/`issuedDate`, then write the job object spread
together with `createdAt`/`updatedAt` server timestamps into the `jobs`
collection with `{ merge: true }`. Returns the id and the new store.
`now` is the server time resolving the timestamp sentinels. -/
def saveJob (store : FsStore) (job : FsDoc) (now : Nat) : String × FsStore :=
  let docId := generateDocId (getStrField job "advtNo")
    ((getStrField job "postName").getD "") (getStrField job "issuedDate")
  let written := setField (setField job "createdAt" (FsValue.serverTimestamp now))
    "updatedAt" (FsValue.serverTimestamp now)
  let old := (storeGet store docId).getD []
  (docId, storeSet store docId (mergeSet old written))

end FirestoreService


/-! ## Error classification and retry (`errorHandler` module, STEP 4) -/

namespace ErrorHandler

/-- The `ErrorType` enumeration. -/
inductive ErrorType where
  | NETWORK_ERROR
  | PARSE_ERROR
  | STRUCTURE_CHANGE
  | FIRESTORE_ERROR
  deriving DecidableEq, Repr

/-- The classification record returned by `classifyError`. -/
structure Classification where
  type : ErrorType
  shouldRetry : Bool
  maxRetries : Nat
  shouldAlert : Bool
  message : String
  deriving DecidableEq, Repr

/-- A JS `Error` as the classifier sees it: its message text. -/
structure JsError where
  message : String
  deriving DecidableEq, Repr

/-- The context bag passed to `classifyError`. The JS default `{}` has
every flag falsy and `jobsFound` undefined. -/
structure ErrCtx where
  isPdfParsing : Bool := false
  isFirestoreOperation : Bool := false
  jobsFound : Option Int := none
  expectedJobs : Bool := false
  deriving DecidableEq, Repr

/-- First classifier guard: SSL / timeout / DNS vocabulary or an HTTP 5xx
pattern anywhere in the lowercased message. -/
def networkCond (m : String) : Bool :=
  containsStr m "certificate" || containsStr m "timeout" ||
  containsStr m "econnrefused" || containsStr m "enotfound" ||
  containsStr m "network" || containsStr m "dns" || has5xx m.toList

/-- Second classifier guard: unreadable or scanned document content, or
the PDF-parsing context flag. -/
def parseCond (m : String) (ctx : ErrCtx) : Bool :=
  containsStr m "pdf text too short" || containsStr m "scanned" ||
  containsStr m "empty" || containsStr m "could not extract" || ctx.isPdfParsing

/-- Third classifier guard: zero listings / failed selectors, or an
unexpected zero-result context. -/
def structureCond (m : String) (ctx : ErrCtx) : Bool :=
  containsStr m "no job listings found" || containsStr m "all selectors failed" ||
  containsStr m "page structure changed" || containsStr m "table not found" ||
  (ctx.jobsFound = some 0 && ctx.expectedJobs)

/-- Fourth classifier guard: persistence-layer vocabulary or the
persistence context flag. -/
def firestoreCond (m : String) (ctx : ErrCtx) : Bool :=
  containsStr m "firestore" || containsStr m "permission denied" ||
  containsStr m "quota exceeded" || containsStr m "deadline exceeded" ||
  ctx.isFirestoreOperation

def networkClassification : Classification :=
  ⟨ErrorType.NETWORK_ERROR, true, 2, false, "Network connectivity issue"⟩

def parseClassification : Classification :=
  ⟨ErrorType.PARSE_ERROR, false, 0, false, "PDF parsing failed (expected for scanned PDFs)"⟩

def structureClassification : Classification :=
  ⟨ErrorType.STRUCTURE_CHANGE, false, 0, true, "Website structure changed - human intervention required"⟩

def firestoreClassification : Classification :=
  ⟨ErrorType.FIRESTORE_ERROR, true, 3, true, "Firestore operation failed"⟩

def unknownClassification : Classification :=
  ⟨ErrorType.NETWORK_ERROR, true, 2, false, "Unknown error - treating as network issue"⟩

/-- `classifyError` of the error-handler module: lowercase the message,
then take the first matching guard in the order network, parse,
structure-change, persistence; default to the unknown/network policy. -/
def classifyError (e : JsError) (ctx : ErrCtx) : Classification :=
  let m := jsLower e.message
  if networkCond m then networkClassification
  else if parseCond m ctx then parseClassification
  else if structureCond m ctx then structureClassification
  else if firestoreCond m ctx then firestoreClassification
  else unknownClassification

/-- `retryOperation` of the error-handler module, modelled over a pure
description `op` of the fallible operation: `op k` is the outcome of its
`k`-th invocation (0-based). `attempt` counts completed failed calls, as
the JS variable does after its increment. Returns the final outcome and
the list of backoff delays (milliseconds) waited before each retry, in
order: after the `k`-th failed call the JS code retries only when the
classification says `shouldRetry` and `k+1 < maxRetries`, sleeping
`2^(k+1) * 1000` ms; otherwise the original error is rethrown. -/
def retryAux (op : Nat → Except JsError α) (ctx : ErrCtx) (attempt : Nat) :
    Except JsError α × List Nat :=
  match op attempt with
  | Except.ok v => (Except.ok v, [])
  | Except.error e =>
    let cls := classifyError e ctx
    if h : cls.shouldRetry = true ∧ attempt + 1 < cls.maxRetries then
      let rest := retryAux op ctx (attempt + 1)
      (rest.1, 2 ^ (attempt + 1) * 1000 :: rest.2)
    else
      (Except.error e, [])
termination_by 3 - attempt
decreasing_by
  have hle : cls.maxRetries ≤ 3 := by
    unfold cls classifyError
    dsimp only
    repeat' split
    all_goals decide
  omega

/-- The public entry point: start with zero completed attempts. -/
def retryOperation (op : Nat → Except JsError α) (ctx : ErrCtx) :
    Except JsError α × List Nat :=
  retryAux op ctx 0

end ErrorHandler


/-! ## `backend/scraper.js` — `downloadAndParsePdf` -/

namespace Scraper

/-- A JS field value of the record returned by `downloadAndParsePdf`:
an extracted string, a number, or `null`. -/
inductive JsPrim where
  | str (s : String)
  | num (n : Int)
  | null
  deriving DecidableEq, Repr

/-- The per-field result of `extractDataFromText`: each pattern group
either matched (trimmed text) or stayed `null`. The regex machinery
itself is the external extraction collaborator; it is a pure function of
the PDF text and never throws. -/
structure ExtractedFields where
  advtNo : Option String
  postName : Option String
  lastDate : Option String
  qualification : Option String
  totalPosts : Option String
  department : Option String
  deriving DecidableEq, Repr

/-- What `pdfParse` returned on a successfully fetched buffer. -/
structure ParsedPdf where
  text : String
  numpages : Nat
  deriving DecidableEq, Repr

/-- One interaction of `downloadAndParsePdf` with the outside world:
either the download threw (network/SSL/timeout error message), or it
yielded a buffer of `bufLen` bytes on which `pdfParse` behaves as
`parse` says. -/
inductive FetchWorld where
  | fetchErr (msg : String)
  | fetched (bufLen : Nat) (parse : Except String ParsedPdf)
  deriving Repr

/-- The record assembled by `downloadAndParsePdf`. `pdfPages` is the
success-only `metadata.pdfPages`; `parsingErrors` is
`metadata.parsingErrors` (absent on success, modelled as `[]`). -/
structure PdfRecord where
  advtNo : JsPrim
  postName : JsPrim
  lastDate : JsPrim
  qualification : JsPrim
  totalPosts : JsPrim
  department : JsPrim
  dataComplete : Bool
  pdfPages : Option Nat
  parsingErrors : List String
  deriving DecidableEq, Repr

def primOf : Option String → JsPrim
  | some s => JsPrim.str s
  | none => JsPrim.null

/-- The catch-branch record of `downloadAndParsePdf`: minimal data, the
error flag down, and the failure message recorded. -/
def failureRecord (msg : String) : PdfRecord :=
  { advtNo := JsPrim.null, postName := JsPrim.null, lastDate := JsPrim.null,
    qualification := JsPrim.str "See official notification",
    totalPosts := JsPrim.num 1, department := JsPrim.str "SPSC",
    dataComplete := false, pdfPages := none, parsingErrors := [msg] }

/-- The success record of `downloadAndParsePdf`: the extracted fields
spread with `dataComplete: true` and page-count metadata. -/
def successRecord (e : ExtractedFields) (numpages : Nat) : PdfRecord :=
  { advtNo := primOf e.advtNo, postName := primOf e.postName,
    lastDate := primOf e.lastDate, qualification := primOf e.qualification,
    totalPosts := primOf e.totalPosts, department := primOf e.department,
    dataComplete := true, pdfPages := some numpages, parsingErrors := [] }

/-- `downloadAndParsePdf` of `scraper.js`, with the extraction
collaborator `extract` abstracted. The entire body is wrapped in
try/catch: a download error, an undersized buffer (`< 5000` bytes), a
`pdfParse` failure and too-short text (`< 200` chars after trim) all
land in the catch branch, which returns `failureRecord` instead of
rethrowing — the function is total at its boundary by construction. -/
def downloadAndParsePdf (extract : String → ExtractedFields) (w : FetchWorld) : PdfRecord :=
  match w with
  | FetchWorld.fetchErr msg => failureRecord msg
  | FetchWorld.fetched bufLen parse =>
    if bufLen < 5000 then failureRecord "PDF file too small or empty"
    else match parse with
      | Except.error msg => failureRecord msg
      | Except.ok p =>
        if (trimChars p.text.toList).length < 200 then
          failureRecord "PDF text too short or empty (likely scanned)"
        else successRecord (extract p.text) p.numpages

end Scraper

/-! ## `backend/normalizer.js` — dates, statuses, field normalization

Calendar instants are epoch-based day counts scaled to milliseconds;
`daysFromCivil` is the standard civil-from-days serialization, strictly
monotone over valid Gregorian dates, so `isBefore` comparisons and the
"+30 days" default are faithfully represented. Parsed dates sit at UTC
midnight. -/

namespace Normalizer

def isLeapYear (y : Nat) : Bool := (y % 4 = 0 && y % 100 ≠ 0) || y % 400 = 0

def daysInMonth (y m : Nat) : Nat :=
  if m = 2 then (if isLeapYear y then 29 else 28)
  else if m = 4 || m = 6 || m = 9 || m = 11 then 30
  else 31

/-- Days since 0000-03-01 of the civil date `y-m-d` (valid for the years
this program touches). -/
def daysFromCivil (y m d : Nat) : Nat :=
  let y' := if m ≤ 2 then y - 1 else y
  let era := y' / 400
  let yoe := y' % 400
  let mp := (m + 9) % 12
  let doy := (153 * mp + 2) / 5 + (d - 1)
  let doe := yoe * 365 + yoe / 4 - yoe / 100 + doy
  era * 146097 + doe

def msPerDay : Nat := 86400000

def msOfDate (y m d : Nat) : Nat := daysFromCivil y m d * msPerDay

def thirtyDaysMs : Nat := 30 * msPerDay

def allDigits (l : List Char) : Bool := l.all Char.isDigit

def digitsVal (l : List Char) : Nat := l.foldl (fun a c => a * 10 + (c.toNat - 48)) 0

/-- A digit run of length between `lo` and `hi`. -/
def tokLen (l : List Char) (lo hi : Nat) : Bool :=
  allDigits l && lo ≤ l.length && l.length ≤ hi

/-- moment's two-digit-year rule: `n ≤ 68` reads as `20nn`, else `19nn`. -/
def momentTwoDigitYear (n : Nat) : Nat := if n ≤ 68 then 2000 + n else 1900 + n

def validYMD (y m d : Nat) : Bool :=
  1 ≤ m && m ≤ 12 && 1 ≤ d && d ≤ daysInMonth y m

/-- One strict `day sep month sep year` format attempt: token lengths per
the format (`DD` exactly two digits, `D` one or two, `YYYY` four, `YY`
two with moment's two-digit-year rule), calendar-valid values, full
match of the input. Returns the UTC-midnight instant. -/
def tryFormat (s : String) (sep : Char) (dLo dHi mLo mHi : Nat) (yearTwo : Bool) :
    Option Nat :=
  match s.toList.splitOn sep with
  | [ds, ms', ys] =>
    if tokLen ds dLo dHi && tokLen ms' mLo mHi &&
        (if yearTwo then tokLen ys 2 2 else tokLen ys 4 4) then
      let d := digitsVal ds
      let m := digitsVal ms'
      let y := if yearTwo then momentTwoDigitYear (digitsVal ys) else digitsVal ys
      if validYMD y m d then some (msOfDate y m d) else none
    else none
  | _ => none

/-- The strict-format cascade of `normalizeDate`, in source order:
`DD/MM/YYYY`, `DD-MM-YYYY`, `DD.MM.YYYY`, `D/M/YYYY`, `D-M-YYYY`,
`DD/MM/YY`, `DD-MM-YY`; the first format that parses and validates
wins. -/
def momentStrictParse (s : String) : Option Nat :=
  (tryFormat s '/' 2 2 2 2 false).orElse fun _ =>
  (tryFormat s '-' 2 2 2 2 false).orElse fun _ =>
  (tryFormat s '.' 2 2 2 2 false).orElse fun _ =>
  (tryFormat s '/' 1 2 1 2 false).orElse fun _ =>
  (tryFormat s '-' 1 2 1 2 false).orElse fun _ =>
  (tryFormat s '/' 2 2 2 2 true).orElse fun _ =>
  tryFormat s '-' 2 2 2 2 true

/-- Default parsing `moment(str)` as `determineStatus` invokes it,
modelled for the date shapes this program encounters: an ISO-8601
calendar date `YYYY-MM-DD` (moment's own ISO parser), else the V8
`Date` fallback, which reads slash-separated dates month-first
(`M/D/YYYY`). Any other shape is an invalid moment, and
`invalid.isBefore(..)` is `false`. -/
def momentLooseParse (s : String) : Option Nat :=
  match s.toList.splitOn '-' with
  | [ys, ms', ds] =>
    if tokLen ys 4 4 && tokLen ms' 2 2 && tokLen ds 2 2 &&
        validYMD (digitsVal ys) (digitsVal ms') (digitsVal ds) then
      some (msOfDate (digitsVal ys) (digitsVal ms') (digitsVal ds))
    else none
  | _ =>
    match s.toList.splitOn '/' with
    | [ms', ds, ys] =>
      if tokLen ms' 1 2 && tokLen ds 1 2 && tokLen ys 4 4 &&
          validYMD (digitsVal ys) (digitsVal ms') (digitsVal ds) then
        some (msOfDate (digitsVal ys) (digitsVal ms') (digitsVal ds))
      else none
    | _ => none

/-- `normalizeDate` of `normalizer.js`: a falsy input or one that matches
none of the seven strict day-first formats defaults to thirty days from
now (with a warning); otherwise the strictly parsed instant. -/
def normalizeDate (raw : Option String) (nowMs : Nat) : Nat :=
  match raw with
  | none => nowMs + thirtyDaysMs
  | some s =>
    if s = "" then nowMs + thirtyDaysMs
    else match momentStrictParse s with
      | some ms => ms
      | none => nowMs + thirtyDaysMs

/-- `determineStatus` of `normalizer.js`: falsy input is `active`;
otherwise the input is parsed by `moment(lastDate)` — the loose default
parser, not the strict format cascade — and compared with now;
an invalid parse is never before now. -/
def determineStatus (lastDate : Option String) (nowMs : Nat) : String :=
  match lastDate with
  | none => "active"
  | some s =>
    if s = "" then "active"
    else match momentLooseParse s with
      | some ms => if ms < nowMs then "expired" else "active"
      | none => "active"

/-- The JS `parseInt(s, 10)`: skip leading whitespace, optional sign,
then the maximal leading digit run; no digits means `NaN` (`none`). -/
def jsParseInt (s : String) : Option Int :=
  let l := s.toList.dropWhile isJsWs
  let signed : Int × List Char :=
    match l with
    | '-' :: r => (-1, r)
    | '+' :: r => (1, r)
    | _ => (1, l)
  let digits := signed.2.takeWhile Char.isDigit
  if digits.isEmpty then none else some (signed.1 * (digitsVal digits : Int))

/-- The replace `\n` followed by whitespace by a bare `\n` (the second,
order-dead cleaning step of `normalizeQualification`). The flag says a
newline-run match is still consuming trailing whitespace. -/
def nlWsAux : List Char → Bool → List Char
  | [], _ => []
  | c :: rest, inMatch =>
    if inMatch && isJsWs c then nlWsAux rest true
    else if c = '\n' then '\n' :: nlWsAux rest true
    else c :: nlWsAux rest false

/-- `normalizeAdvtNo` of `normalizer.js` (distinct from the firestore
service one): falsy or `TEMP_`-prefixed input synthesizes
`SPSC/<year>/<epoch ms>` from the clock; otherwise uppercase + trim. -/
def normalizeAdvtNo (a : Option String) (nowYear nowMs : Nat) : String :=
  match a with
  | none => "SPSC/" ++ toString nowYear ++ "/" ++ toString nowMs
  | some s =>
    if s = "" || s.startsWith "TEMP_" then
      "SPSC/" ++ toString nowYear ++ "/" ++ toString nowMs
    else String.mk (trimChars (s.toList.map jsUpChar))

/-- `normalizePostName`: falsy or the `Unknown Position` placeholder
becomes `Position Not Specified`; otherwise trim, collapse whitespace
runs to single spaces, map newlines to spaces (dead after the
collapse), and cap at 200 characters with an ellipsis. -/
def normalizePostName (p : Option String) : String :=
  match p with
  | none => "Position Not Specified"
  | some s =>
    if s = "" || s = "Unknown Position" then "Position Not Specified"
    else
      let cleaned := (collapseWs ' ' (trimChars s.toList)).map
        (fun c => if c = '\n' then ' ' else c)
      if cleaned.length > 200 then String.mk (cleaned.take 197) ++ "..."
      else String.mk cleaned

/-- `normalizeDepartment`: falsy becomes `SPSC`; otherwise trim, collapse
whitespace, cut to 100 characters. -/
def normalizeDepartment (d : Option String) : String :=
  match d with
  | none => "SPSC"
  | some s =>
    if s = "" then "SPSC"
    else String.mk ((collapseWs ' ' (trimChars s.toList)).take 100)

/-- `normalizeTotalPosts`: falsy input, an unparsable integer or a value
below one all default to 1. -/
def normalizeTotalPosts (t : Option String) : Nat :=
  match t with
  | none => 1
  | some s =>
    if s = "" then 1
    else match jsParseInt s with
      | none => 1
      | some n => if n < 1 then 1 else n.toNat

/-- `normalizeQualification`: falsy becomes the standing notice;
otherwise trim, collapse whitespace, apply the newline cleanup, and cap
at 1000 characters with an ellipsis. -/
def normalizeQualification (q : Option String) : String :=
  match q with
  | none => "See official notification for qualification details"
  | some s =>
    if s = "" then "See official notification for qualification details"
    else
      let cleaned := nlWsAux (collapseWs ' ' (trimChars s.toList)) false
      if cleaned.length > 1000 then String.mk (cleaned.take 997) ++ "..."
      else String.mk cleaned

/-- The raw extracted record handed to `normalizeJobData`. `scrapedAtMs`
models the optional `scrapedAt` timestamp; `parsingErrors` models
`metadata.parsingErrors` (missing metadata reads as `[]`). -/
structure RawJob where
  advtNo : Option String := none
  postName : Option String := none
  department : Option String := none
  totalPosts : Option String := none
  qualification : Option String := none
  lastDate : Option String := none
  pdfUrl : Option String := none
  sourceUrl : Option String := none
  scrapedAtMs : Option Nat := none
  dataComplete : Option Bool := none
  parsingErrors : List String := []
  deriving DecidableEq, Repr

/-- The normalized job record. Dates are instants (epoch ms). -/
structure NormalizedJob where
  advtNo : String
  postName : String
  department : String
  totalPosts : Nat
  qualification : String
  lastDate : Nat
  pdfUrl : Option String
  scrapedAt : Nat
  createdAt : Nat
  status : String
  dataComplete : Bool
  sourceUrl : String
  parsingErrors : List String
  deriving DecidableEq, Repr

/-- `normalizeJobData` of `normalizer.js`. Note two facts read straight
off the source: `status` is computed from the *raw* `rawData.lastDate`
(via the loose `moment` parser in `determineStatus`), not from the
normalized `lastDate` field; and `dataComplete` is
`rawData.dataComplete !== false`. The trailing validation pass only
logs, so it does not appear in the value. -/
def normalizeJobData (raw : RawJob) (nowMs nowYear : Nat) : NormalizedJob :=
  { advtNo := normalizeAdvtNo raw.advtNo nowYear nowMs,
    postName := normalizePostName raw.postName,
    department := normalizeDepartment raw.department,
    totalPosts := normalizeTotalPosts raw.totalPosts,
    qualification := normalizeQualification raw.qualification,
    lastDate := normalizeDate raw.lastDate nowMs,
    pdfUrl := raw.pdfUrl,
    scrapedAt := raw.scrapedAtMs.getD nowMs,
    createdAt := nowMs,
    status := determineStatus raw.lastDate nowMs,
    dataComplete := raw.dataComplete ≠ some false,
    sourceUrl := raw.sourceUrl.getD "https://spscskm.gov.in",
    parsingErrors := raw.parsingErrors }

end Normalizer


/-! ## Spec-side definitions for refinement comparisons -/

/-- The alphabet of well-formed advertisement-number text (§8): letters of
either case, digits, the separators `/` and `-`, and whitespace. -/
def validAdvtChars : List Char :=
  "ABCDEFGHIJKLMNOPQRSTUVWXYZabcdefghijklmnopqrstuvwxyz0123456789/- \t\n\r".toList

def wfAdvtChar (c : Char) : Bool := validAdvtChars.contains c

/-- A well-formed advertisement-number string: every character from the
advertisement alphabet. -/
def wfAdvt (s : String) : Bool := s.toList.all wfAdvtChar

/-- The canonical image of an advertisement string under the spec's
"differs only in whitespace, letter case, or separator style" relation:
uppercase, delete whitespace, map both separators to `_`. Two strings
differ only in those respects exactly when their canonical images are
equal. -/
def canonAdvt (s : String) : String :=
  String.mk ((stripWs (s.toList.map jsUpChar)).map FirestoreService.sepToUnderscore)

/-- The duplicate check as the spec's §4.4 contract words it: resolve the
identity via §4.3 (`generateDocId`, fallback path included) and report
whether a record exists at exactly that key. -/
def specIsDuplicate (advtNo : Option String) (postName : String)
    (issuedDate : Option String) (store : List String) : Bool :=
  store.contains (FirestoreService.generateDocId advtNo postName issuedDate)

/-! ## Character-level facts about the advertisement alphabet -/

/-- Uppercasing a well-formed character yields whitespace or a character
the `normalizeAdvtNo` filter keeps. -/
theorem up_ws_or_keep_of_wf (c : Char) (h : wfAdvtChar c = true) :
    (isJsWs (jsUpChar c) || FirestoreService.keepAdvtChar (jsUpChar c)) = true := by
  have hall : validAdvtChars.all
      (fun c => isJsWs (jsUpChar c) || FirestoreService.keepAdvtChar (jsUpChar c)) = true := by
    decide
  have hmem : c ∈ validAdvtChars := by
    simpa [wfAdvtChar] using h
  exact List.all_eq_true.mp hall c hmem

/-- Uppercasing a well-formed character never produces an underscore. -/
theorem up_ne_underscore_of_wf (c : Char) (h : wfAdvtChar c = true) :
    jsUpChar c ≠ '_' := by
  have hall : validAdvtChars.all (fun c => jsUpChar c ≠ '_') = true := by decide
  have hmem : c ∈ validAdvtChars := by
    simpa [wfAdvtChar] using h
  simpa using List.all_eq_true.mp hall c hmem

/-- On well-formed input, the character filter of `normalizeAdvtNo` keeps
everything that survived whitespace removal. -/
theorem normalize_filter_vacuous (l : List Char) (h : ∀ c ∈ l, wfAdvtChar c = true) :
    (stripWs (l.map jsUpChar)).filter FirestoreService.keepAdvtChar
      = stripWs (l.map jsUpChar) := by
  apply List.filter_eq_self.mpr
  intro a ha
  have ha' : a ∈ l.map jsUpChar ∧ ¬ isJsWs a := by
    have := List.mem_filter.mp ha
    simpa [stripWs] using this
  obtain ⟨hmem, hnw⟩ := ha'
  obtain ⟨c, hc, rfl⟩ := List.mem_map.mp hmem
  have hwf := h c hc
  have hor := up_ws_or_keep_of_wf c hwf
  rcases Bool.or_eq_true_iff.mp hor with hws | hkeep
  · exact absurd hws (by simpa using hnw)
  · exact hkeep

/-- On well-formed input `normalizeAdvtNo` coincides with the canonical
image. -/
theorem normalizeAdvtNo_eq_canon (s : String) (h : wfAdvt s = true) :
    FirestoreService.normalizeAdvtNo s = canonAdvt s := by
  have h' : ∀ c ∈ s.toList, wfAdvtChar c = true := by
    intro c hc
    exact List.all_eq_true.mp h c hc
  unfold FirestoreService.normalizeAdvtNo canonAdvt
  rw [normalize_filter_vacuous s.toList h']

/-- For well-formed input the underscore-preserving filter of
`checkDuplicate` coincides with the `normalizeAdvtNo` filter, so the two
inline normalizations agree. -/
theorem dupKey_eq_normalizeAdvtNo (s : String) (h : wfAdvt s = true) :
    FirestoreService.dupKey s = FirestoreService.normalizeAdvtNo s := by
  have h' : ∀ c ∈ s.toList, wfAdvtChar c = true := by
    intro c hc
    exact List.all_eq_true.mp h c hc
  unfold FirestoreService.dupKey FirestoreService.normalizeAdvtNo
  have hfc : (stripWs (s.toList.map jsUpChar)).filter FirestoreService.keepDupChar
      = (stripWs (s.toList.map jsUpChar)).filter FirestoreService.keepAdvtChar := by
    apply List.filter_congr
    intro a ha
    have hmem : a ∈ s.toList.map jsUpChar := by
      have hsplit : a ∈ s.toList.map jsUpChar ∧ isJsWs a = false := by
        simpa [stripWs, List.mem_filter] using ha
      exact hsplit.1
    obtain ⟨c, hc, rfl⟩ := List.mem_map.mp hmem
    have hne : jsUpChar c ≠ '_' := up_ne_underscore_of_wf c (h' c hc)
    simp [FirestoreService.keepDupChar, hne]
  rw [hfc]

/-! ## Claim theorems -/

/-- C4: for all well-formed advertisement-number strings that differ only
in whitespace, letter case, or separator style (equal canonical images),
the Identity Resolver produces the same identity; and the two quoted
inputs both resolve to `19_SPSC_EXAM_2025`. -/
theorem C4_identity_normalization_law :
    (∀ s₁ s₂ : String, wfAdvt s₁ = true → wfAdvt s₂ = true →
      canonAdvt s₁ = canonAdvt s₂ →
      FirestoreService.normalizeAdvtNo s₁ = FirestoreService.normalizeAdvtNo s₂) ∧
    FirestoreService.generateDocId (some "19/SPSC/EXAM/2025") "" none
      = "19_SPSC_EXAM_2025" ∧
    FirestoreService.generateDocId (some "19 / spsc / exam / 2025") "" none
      = "19_SPSC_EXAM_2025" := by
  refine ⟨?_, by decide, by decide⟩
  intro s₁ s₂ h₁ h₂ hc
  rw [normalizeAdvtNo_eq_canon s₁ h₁, normalizeAdvtNo_eq_canon s₂ h₂, hc]

/-- Witness for C4 at the two quoted advertisement strings. -/
theorem C4_identity_normalization_law_witness :
    FirestoreService.normalizeAdvtNo "19 / spsc / exam / 2025"
      = FirestoreService.normalizeAdvtNo "19/SPSC/EXAM/2025" :=
  C4_identity_normalization_law.1 "19 / spsc / exam / 2025" "19/SPSC/EXAM/2025"
    (by decide) (by decide) (by decide)

/-- C2 (counterexample): the duplicate check does not implement the §4.4
contract. First, with no advertisement number the spec-worded check sees
the record stored at the §4.3 fallback identity, while `checkDuplicate`
returns `false` without consulting the store. Second, for an
advertisement number containing an underscore, the inline key of
`checkDuplicate` differs from the §4.3 identity, so the lookup misses a
record stored at the resolver's key. -/
theorem C2_checkDuplicate_not_spec_counterexample :
    (specIsDuplicate none "Junior Engineer" (some "11/12/2025")
        ["SPSC_11122025_JUNIOR_ENGINEER"] = true ∧
      FirestoreService.checkDuplicate none ["SPSC_11122025_JUNIOR_ENGINEER"] = false) ∧
    (specIsDuplicate (some "A_B") "" none ["AB"] = true ∧
      FirestoreService.checkDuplicate (some "A_B") ["AB"] = false) := by
  decide

/-- C2 (amended): `checkDuplicate` consults only the advertisement
number: it is `false` whenever `advtNo` is absent or empty (the fallback
identity is never computed), and otherwise reports membership of its
inline key `dupKey`, which preserves underscores; on well-formed,
non-blank advertisement numbers this key equals the §4.3 identity and
the check coincides with the spec-worded `specIsDuplicate`. -/
theorem C2_checkDuplicate_amended :
    (∀ store : List String, FirestoreService.checkDuplicate none store = false) ∧
    (∀ (a : String) (store : List String),
      FirestoreService.checkDuplicate (some a) store = true ↔
        a ≠ "" ∧ store.contains (FirestoreService.dupKey a) = true) ∧
    (∀ (a : String) (postName : String) (issuedDate : Option String)
        (store : List String), wfAdvt a = true →
      String.mk (trimChars a.toList) ≠ "" →
      FirestoreService.checkDuplicate (some a) store
        = specIsDuplicate (some a) postName issuedDate store) := by
  refine ⟨fun _ => rfl, ?_, ?_⟩
  · intro a store
    by_cases h : a = ""
    · subst h
      simp [FirestoreService.checkDuplicate]
    · simp [FirestoreService.checkDuplicate, h]
  · intro a postName issuedDate store hwf htrim
    have hne : a ≠ "" := by
      intro h
      apply htrim
      subst h
      rfl
    have htrim' : ¬ (String.mk (trimChars a.data) = "") := by
      simpa [String.toList] using htrim
    unfold FirestoreService.checkDuplicate specIsDuplicate FirestoreService.generateDocId
    simp [hne, htrim', dupKey_eq_normalizeAdvtNo a hwf]

/-- Witness for C2 (amended), exercising each hypothesis at a concrete
store: a well-formed non-blank advertisement number for which the check
and the spec-worded check agree, and the membership reading of the
`true` branch. -/
theorem C2_checkDuplicate_amended_witness :
    FirestoreService.checkDuplicate (some "19/SPSC/EXAM/2025") ["19_SPSC_EXAM_2025"]
        = specIsDuplicate (some "19/SPSC/EXAM/2025") "x" none ["19_SPSC_EXAM_2025"] ∧
    (FirestoreService.checkDuplicate (some "A_B") ["A_B"] = true ↔
      "A_B" ≠ "" ∧ (["A_B"].contains (FirestoreService.dupKey "A_B")) = true) :=
  ⟨C2_checkDuplicate_amended.2.2 "19/SPSC/EXAM/2025" "x" none ["19_SPSC_EXAM_2025"]
      (by decide) (by decide),
    C2_checkDuplicate_amended.2.1 "A_B" ["A_B"]⟩

/-- C1 (evaluation at the failing input): the store holds the record for
advertisement `19/SPSC/EXAM/2025` with `dataComplete=true`; a second
`saveJob` for the same identity carrying `dataComplete=false` leaves the
stored field at `false` — the blind `{ merge: true }` write downgrades
it, for any server timestamps. -/
theorem C1_saveJob_downgrades_dataComplete (t₁ t₂ : Nat) :
    FirestoreService.getField
      ((FirestoreService.storeGet
        (FirestoreService.saveJob
          (FirestoreService.saveJob []
            [("advtNo", FirestoreService.FsValue.str "19/SPSC/EXAM/2025"),
             ("postName", FirestoreService.FsValue.str "Labour Inspector"),
             ("dataComplete", FirestoreService.FsValue.boolean true)] t₁).2
          [("advtNo", FirestoreService.FsValue.str "19/SPSC/EXAM/2025"),
           ("postName", FirestoreService.FsValue.str "Labour Inspector"),
           ("dataComplete", FirestoreService.FsValue.boolean false)] t₂).2
        "19_SPSC_EXAM_2025").getD [])
      "dataComplete" = some (FirestoreService.FsValue.boolean false) := by
  rfl

/-- C3 (evaluation at the failing input): a value already carrying the
fallback-generation prefix `SPSC_` is nonetheless taken down the primary
path by `generateDocId` (no prefix check exists) and is re-normalized
into a different identity — its underscores are stripped — so the
re-scraped record no longer maps to the stored fallback identity. -/
theorem C3_fallback_prefix_renormalized :
    FirestoreService.generateDocId (some "SPSC_11122025_JUNIOR_ENGINEER")
        "Junior Engineer" (some "11/12/2025") = "SPSC11122025JUNIORENGINEER" ∧
    FirestoreService.generateDocId (some "SPSC_11122025_JUNIOR_ENGINEER")
        "Junior Engineer" (some "11/12/2025") ≠ "SPSC_11122025_JUNIOR_ENGINEER" := by
  decide

/-- C5 (evaluation at the failing input): the fallback path is
deterministic (it is a pure function of `(postName, issuedDate)`), but
for `postName="Junior Engineer"`, `issuedDate="11/12/2025"` it yields
`SPSC_11122025_JUNIOR_ENGINEER` — the date digits keep their day-first
source order, they are not reordered to the documented
`SPSC_20251211_JUNIOR_ENGINEER`. -/
theorem C5_fallback_id_digit_order :
    FirestoreService.generateDocId none "Junior Engineer" (some "11/12/2025")
        = "SPSC_11122025_JUNIOR_ENGINEER" ∧
    FirestoreService.fallbackId "Junior Engineer" (some "11/12/2025")
        = "SPSC_11122025_JUNIOR_ENGINEER" ∧
    FirestoreService.fallbackId "Junior Engineer" (some "11/12/2025")
        ≠ "SPSC_20251211_JUNIOR_ENGINEER" := by
  decide

/-- C6: classification is total — every message and context yields one of
the five fixed records, each carrying one of the four categories with
its fixed retry/alert policy (the default record reuses the
NETWORK_ERROR category and policy) — and follows first-match precedence
NETWORK_ERROR, then PARSE_ERROR, then STRUCTURE_CHANGE, then
FIRESTORE_ERROR; in particular a message containing both `timeout` and
`quota exceeded` classifies as NETWORK_ERROR, not FIRESTORE_ERROR. -/
theorem C6_classifyError_total_first_match :
    (∀ (e : ErrorHandler.JsError) (ctx : ErrorHandler.ErrCtx),
      ErrorHandler.classifyError e ctx = ErrorHandler.networkClassification ∨
      ErrorHandler.classifyError e ctx = ErrorHandler.parseClassification ∨
      ErrorHandler.classifyError e ctx = ErrorHandler.structureClassification ∨
      ErrorHandler.classifyError e ctx = ErrorHandler.firestoreClassification ∨
      ErrorHandler.classifyError e ctx = ErrorHandler.unknownClassification) ∧
    (∀ e ctx, ErrorHandler.networkCond (jsLower e.message) = true →
      ErrorHandler.classifyError e ctx = ErrorHandler.networkClassification) ∧
    (∀ e ctx, ErrorHandler.networkCond (jsLower e.message) = false →
      ErrorHandler.parseCond (jsLower e.message) ctx = true →
      ErrorHandler.classifyError e ctx = ErrorHandler.parseClassification) ∧
    (∀ e ctx, ErrorHandler.networkCond (jsLower e.message) = false →
      ErrorHandler.parseCond (jsLower e.message) ctx = false →
      ErrorHandler.structureCond (jsLower e.message) ctx = true →
      ErrorHandler.classifyError e ctx = ErrorHandler.structureClassification) ∧
    (∀ e ctx, ErrorHandler.networkCond (jsLower e.message) = false →
      ErrorHandler.parseCond (jsLower e.message) ctx = false →
      ErrorHandler.structureCond (jsLower e.message) ctx = false →
      ErrorHandler.firestoreCond (jsLower e.message) ctx = true →
      ErrorHandler.classifyError e ctx = ErrorHandler.firestoreClassification) ∧
    (∀ e ctx, ErrorHandler.networkCond (jsLower e.message) = false →
      ErrorHandler.parseCond (jsLower e.message) ctx = false →
      ErrorHandler.structureCond (jsLower e.message) ctx = false →
      ErrorHandler.firestoreCond (jsLower e.message) ctx = false →
      ErrorHandler.classifyError e ctx = ErrorHandler.unknownClassification) ∧
    (∀ e ctx, containsStr (jsLower e.message) "timeout" = true →
      ErrorHandler.classifyError e ctx = ErrorHandler.networkClassification ∧
      (ErrorHandler.classifyError e ctx).type = ErrorHandler.ErrorType.NETWORK_ERROR) := by
  refine ⟨?_, ?_, ?_, ?_, ?_, ?_, ?_⟩
  · intro e ctx
    unfold ErrorHandler.classifyError
    dsimp only
    repeat' split
    all_goals simp
  · intro e ctx h
    simp [ErrorHandler.classifyError, h]
  · intro e ctx h1 h2
    simp [ErrorHandler.classifyError, h1, h2]
  · intro e ctx h1 h2 h3
    simp [ErrorHandler.classifyError, h1, h2, h3]
  · intro e ctx h1 h2 h3 h4
    simp [ErrorHandler.classifyError, h1, h2, h3, h4]
  · intro e ctx h1 h2 h3 h4
    simp [ErrorHandler.classifyError, h1, h2, h3, h4]
  · intro e ctx h
    have hn : ErrorHandler.networkCond (jsLower e.message) = true := by
      simp [ErrorHandler.networkCond, h]
    constructor
    · simp [ErrorHandler.classifyError, hn]
    · simp [ErrorHandler.classifyError, hn, ErrorHandler.networkClassification]

/-- Witness for C6: a message containing both `timeout` and
`quota exceeded`, in a context flagging a persistence operation, still
classifies as NETWORK_ERROR; and the parse branch fires when the network
guard is silent. -/
theorem C6_classifyError_total_first_match_witness :
    ErrorHandler.classifyError ⟨"timeout while quota exceeded"⟩
        { isFirestoreOperation := true } = ErrorHandler.networkClassification ∧
    ErrorHandler.classifyError ⟨"PDF text too short"⟩ {}
        = ErrorHandler.parseClassification :=
  ⟨(C6_classifyError_total_first_match.2.2.2.2.2.2 ⟨"timeout while quota exceeded"⟩
      { isFirestoreOperation := true } (by decide)).1,
    C6_classifyError_total_first_match.2.2.1 ⟨"PDF text too short"⟩ {}
      (by decide) (by decide)⟩

/-- C10: any error message containing a three-digit substring beginning
with `5` — the HTTP 5xx regex is tested against the whole lowercased
message — classifies as NETWORK_ERROR, regardless of parse, structure or
persistence vocabulary in the message and of any context flags. -/
theorem C10_http5xx_forces_network (e : ErrorHandler.JsError)
    (ctx : ErrorHandler.ErrCtx) (h : has5xx (jsLower e.message).toList = true) :
    ErrorHandler.classifyError e ctx = ErrorHandler.networkClassification ∧
    (ErrorHandler.classifyError e ctx).type = ErrorHandler.ErrorType.NETWORK_ERROR := by
  have h' : has5xx (jsLower e.message).data = true := h
  have hn : ErrorHandler.networkCond (jsLower e.message) = true := by
    simp [ErrorHandler.networkCond, h']
  constructor
  · simp [ErrorHandler.classifyError, hn]
  · simp [ErrorHandler.classifyError, hn, ErrorHandler.networkClassification]

/-- Witness for C10: a message carrying Firestore, parse and structure
vocabulary plus `503`, with every context flag set, still classifies as
NETWORK_ERROR. -/
theorem C10_http5xx_forces_network_witness :
    ErrorHandler.classifyError
        ⟨"Firestore quota exceeded: HTTP 503, table not found, could not extract"⟩
        { isPdfParsing := true, isFirestoreOperation := true,
          jobsFound := some 0, expectedJobs := true }
      = ErrorHandler.networkClassification :=
  (C10_http5xx_forces_network
    ⟨"Firestore quota exceeded: HTTP 503, table not found, could not extract"⟩
    { isPdfParsing := true, isFirestoreOperation := true,
      jobsFound := some 0, expectedJobs := true } (by decide)).1

/-- C9: `downloadAndParsePdf` is total at its boundary — whatever the
extraction function and however the fetch/parse world behaves, it
returns a record, with `dataComplete=false` plus the single failure
message in `metadata.parsingErrors` on every failure path (download
error, undersized file, parse failure, too-short text), and the
extracted fields with `dataComplete=true` on success. -/
theorem C9_downloadAndParsePdf_total
    (extract : String → Scraper.ExtractedFields) (w : Scraper.FetchWorld) :
    ((Scraper.downloadAndParsePdf extract w).dataComplete = true ∧
      (Scraper.downloadAndParsePdf extract w).parsingErrors = [] ∨
     (Scraper.downloadAndParsePdf extract w).dataComplete = false ∧
      ∃ msg, (Scraper.downloadAndParsePdf extract w).parsingErrors = [msg]) ∧
    (∀ msg, w = Scraper.FetchWorld.fetchErr msg →
      Scraper.downloadAndParsePdf extract w = Scraper.failureRecord msg) ∧
    (∀ bufLen parse, w = Scraper.FetchWorld.fetched bufLen parse → bufLen < 5000 →
      Scraper.downloadAndParsePdf extract w
        = Scraper.failureRecord "PDF file too small or empty") ∧
    (∀ bufLen msg, w = Scraper.FetchWorld.fetched bufLen (Except.error msg) →
      ¬ bufLen < 5000 →
      Scraper.downloadAndParsePdf extract w = Scraper.failureRecord msg) ∧
    (∀ bufLen p, w = Scraper.FetchWorld.fetched bufLen (Except.ok p) →
      ¬ bufLen < 5000 → (trimChars p.text.toList).length < 200 →
      Scraper.downloadAndParsePdf extract w
        = Scraper.failureRecord "PDF text too short or empty (likely scanned)") ∧
    (∀ bufLen p, w = Scraper.FetchWorld.fetched bufLen (Except.ok p) →
      ¬ bufLen < 5000 → ¬ (trimChars p.text.toList).length < 200 →
      Scraper.downloadAndParsePdf extract w
        = Scraper.successRecord (extract p.text) p.numpages ∧
      (Scraper.downloadAndParsePdf extract w).dataComplete = true) ∧
    (∀ msg, (Scraper.failureRecord msg).dataComplete = false ∧
      (Scraper.failureRecord msg).parsingErrors = [msg]) := by
  refine ⟨?_, ?_, ?_, ?_, ?_, ?_, fun msg => ⟨rfl, rfl⟩⟩
  · cases w with
    | fetchErr msg =>
      right
      exact ⟨rfl, msg, rfl⟩
    | fetched bufLen parse =>
      by_cases hb : bufLen < 5000
      · right
        refine ⟨?_, "PDF file too small or empty", ?_⟩ <;>
          simp [Scraper.downloadAndParsePdf, hb, Scraper.failureRecord]
      · cases parse with
        | error msg =>
          right
          refine ⟨?_, msg, ?_⟩ <;>
            simp [Scraper.downloadAndParsePdf, hb, Scraper.failureRecord]
        | ok p =>
          by_cases ht : (trimChars p.text.data).length < 200
          · right
            refine ⟨?_, "PDF text too short or empty (likely scanned)", ?_⟩ <;>
              simp [Scraper.downloadAndParsePdf, hb, ht, Scraper.failureRecord]
          · left
            constructor <;>
              simp [Scraper.downloadAndParsePdf, hb, ht, Scraper.successRecord]
  · intro msg hw
    subst hw
    rfl
  · intro bufLen parse hw hb
    subst hw
    simp [Scraper.downloadAndParsePdf, hb]
  · intro bufLen msg hw hb
    subst hw
    simp [Scraper.downloadAndParsePdf, hb]
  · intro bufLen p hw hb ht
    subst hw
    simp only [String.toList] at ht
    simp [Scraper.downloadAndParsePdf, hb, ht]
  · intro bufLen p hw hb ht
    subst hw
    simp only [String.toList] at ht
    constructor <;> simp [Scraper.downloadAndParsePdf, hb, ht, Scraper.successRecord]

set_option maxRecDepth 4000 in
/-- Witness for C9: a concrete undersized download fails soft with the
message recorded; a concrete successful parse returns the extracted
fields with `dataComplete=true`. -/
theorem C9_downloadAndParsePdf_total_witness :
    Scraper.downloadAndParsePdf (fun _ => ⟨none, none, none, none, none, none⟩)
        (Scraper.FetchWorld.fetched 120 (Except.error "deadbeef"))
      = Scraper.failureRecord "PDF file too small or empty" ∧
    Scraper.downloadAndParsePdf (fun _ => ⟨some "19/SPSC/EXAM/2025", none, none, none, none, none⟩)
        (Scraper.FetchWorld.fetched 9000
          (Except.ok ⟨String.mk (List.replicate 300 'a'), 2⟩))
      = Scraper.successRecord ⟨some "19/SPSC/EXAM/2025", none, none, none, none, none⟩ 2 :=
  ⟨(C9_downloadAndParsePdf_total (fun _ => ⟨none, none, none, none, none, none⟩)
      (Scraper.FetchWorld.fetched 120 (Except.error "deadbeef"))).2.2.1
      120 (Except.error "deadbeef") rfl (by decide),
    ((C9_downloadAndParsePdf_total (fun _ => ⟨some "19/SPSC/EXAM/2025", none, none, none, none, none⟩)
      (Scraper.FetchWorld.fetched 9000
        (Except.ok ⟨String.mk (List.replicate 300 'a'), 2⟩))).2.2.2.2.2.1
      9000 ⟨String.mk (List.replicate 300 'a'), 2⟩ rfl (by decide) (by decide)).1⟩

/-- C8 (counterexample): for the raw record with last date `2020-01-01`
(ISO shape: rejected by all seven strict day-first formats, accepted by
the loose `moment` parser used in `determineStatus`), normalized at now
= 2026-10-11, the resolved (normalized) last date is the +30-day default
— not strictly before now — yet the stored status is `expired`, because
`normalizeJobData` derives status from the raw string, not from the
resolved date. This also falsifies the corollary that a defaulted
+30-day date can never read expired at creation time. -/
theorem C8_status_from_raw_counterexample :
    (Normalizer.normalizeJobData { lastDate := some "2020-01-01" }
        (Normalizer.msOfDate 2026 10 11) 2026).status = "expired" ∧
    (Normalizer.normalizeJobData { lastDate := some "2020-01-01" }
        (Normalizer.msOfDate 2026 10 11) 2026).lastDate
      = Normalizer.msOfDate 2026 10 11 + Normalizer.thirtyDaysMs ∧
    ¬ ((Normalizer.normalizeJobData { lastDate := some "2020-01-01" }
        (Normalizer.msOfDate 2026 10 11) 2026).lastDate
      < Normalizer.msOfDate 2026 10 11) := by
  refine ⟨by decide, by decide, by decide⟩

/-- C8 (amended): the normalized record's status is computed by
`determineStatus` from the raw last-date field — `expired` exactly when
that raw string is non-blank, parseable by the loose default `moment`
parser, and strictly before the current time; `active` otherwise
(absent, blank or loose-unparseable input included). It is not computed
from the resolved (normalized) last date. Only a record whose raw last
date is absent — one source of the +30-day default — is guaranteed
`active` at creation time. -/
theorem C8_status_amended :
    (∀ (raw : Normalizer.RawJob) (nowMs nowYear : Nat),
      (Normalizer.normalizeJobData raw nowMs nowYear).status
        = Normalizer.determineStatus raw.lastDate nowMs) ∧
    (∀ (s : String) (nowMs : Nat), s ≠ "" →
      (Normalizer.determineStatus (some s) nowMs = "expired" ↔
        ∃ ms, Normalizer.momentLooseParse s = some ms ∧ ms < nowMs)) ∧
    (∀ (raw : Normalizer.RawJob) (nowMs nowYear : Nat), raw.lastDate = none →
      (Normalizer.normalizeJobData raw nowMs nowYear).status = "active" ∧
      (Normalizer.normalizeJobData raw nowMs nowYear).lastDate
        = nowMs + Normalizer.thirtyDaysMs) := by
  refine ⟨fun raw nowMs nowYear => rfl, ?_, ?_⟩
  · intro s nowMs hs
    unfold Normalizer.determineStatus
    simp only [hs, if_false]
    cases h : Normalizer.momentLooseParse s with
    | none => simp [h]
    | some ms =>
      by_cases hlt : ms < nowMs
      · simp [h, hlt]
      · simp [h, hlt]
  · intro raw nowMs nowYear hraw
    constructor
    · simp [Normalizer.normalizeJobData, Normalizer.determineStatus, hraw]
    · simp [Normalizer.normalizeJobData, Normalizer.normalizeDate, hraw]

/-- Witness for C8 (amended): the loose-parsed past ISO date reads
expired at a concrete now, and an absent raw last date reads active. -/
theorem C8_status_amended_witness :
    Normalizer.determineStatus (some "2020-01-01") (Normalizer.msOfDate 2026 10 11)
        = "expired" ∧
    (Normalizer.normalizeJobData {} (Normalizer.msOfDate 2026 10 11) 2026).status
        = "active" :=
  ⟨(C8_status_amended.2.1 "2020-01-01" (Normalizer.msOfDate 2026 10 11)
      (by decide)).mpr ⟨Normalizer.msOfDate 2020 1 1, by decide, by decide⟩,
    (C8_status_amended.2.2 {} (Normalizer.msOfDate 2026 10 11) 2026 rfl).1⟩

/-- A retryable classification always carries at least two retries (the
network and persistence policies). -/
theorem classify_retryable_maxRetries (e : ErrorHandler.JsError)
    (ctx : ErrorHandler.ErrCtx)
    (h : (ErrorHandler.classifyError e ctx).shouldRetry = true) :
    2 ≤ (ErrorHandler.classifyError e ctx).maxRetries := by
  revert h
  unfold ErrorHandler.classifyError
  dsimp only
  repeat' split
  all_goals decide

/-- Unfolding `retryAux` on a successful call. -/
theorem retryAux_ok {α} (op : Nat → Except ErrorHandler.JsError α)
    (ctx : ErrorHandler.ErrCtx) (attempt : Nat) (v : α)
    (h : op attempt = Except.ok v) :
    ErrorHandler.retryAux op ctx attempt = (Except.ok v, []) := by
  unfold ErrorHandler.retryAux
  rw [h]

/-- Unfolding `retryAux` when the call fails and the retry guard denies a
further attempt: the original error propagates. -/
theorem retryAux_error_stop {α} (op : Nat → Except ErrorHandler.JsError α)
    (ctx : ErrorHandler.ErrCtx) (attempt : Nat) (e : ErrorHandler.JsError)
    (h : op attempt = Except.error e)
    (hstop : ¬ ((ErrorHandler.classifyError e ctx).shouldRetry = true ∧
      attempt + 1 < (ErrorHandler.classifyError e ctx).maxRetries)) :
    ErrorHandler.retryAux op ctx attempt = (Except.error e, []) := by
  unfold ErrorHandler.retryAux
  rw [h]
  dsimp only
  rw [dif_neg hstop]

/-- Unfolding `retryAux` when the call fails and the retry guard allows
another attempt: sleep `2^(attempt+1)` seconds and recurse. -/
theorem retryAux_error_continue {α} (op : Nat → Except ErrorHandler.JsError α)
    (ctx : ErrorHandler.ErrCtx) (attempt : Nat) (e : ErrorHandler.JsError)
    (h : op attempt = Except.error e)
    (hgo : (ErrorHandler.classifyError e ctx).shouldRetry = true ∧
      attempt + 1 < (ErrorHandler.classifyError e ctx).maxRetries) :
    ErrorHandler.retryAux op ctx attempt =
      ((ErrorHandler.retryAux op ctx (attempt + 1)).1,
        2 ^ (attempt + 1) * 1000 :: (ErrorHandler.retryAux op ctx (attempt + 1)).2) := by
  conv_lhs => rw [ErrorHandler.retryAux]
  rw [h]
  dsimp only
  rw [dif_pos hgo]

/-- If the operation fails `j` times with the same retryable error and
then succeeds, all within the retry budget, `retryAux` returns the
success with the geometric backoff delays. -/
theorem retryAux_ok_after_failures {α} (op : Nat → Except ErrorHandler.JsError α)
    (ctx : ErrorHandler.ErrCtx) (e : ErrorHandler.JsError) (v : α)
    (hr : (ErrorHandler.classifyError e ctx).shouldRetry = true) :
    ∀ j a, (∀ k, k < j → op (a + k) = Except.error e) → op (a + j) = Except.ok v →
      a + j < (ErrorHandler.classifyError e ctx).maxRetries →
      ErrorHandler.retryAux op ctx a =
        (Except.ok v, (List.range j).map (fun k => 2 ^ (a + k + 1) * 1000)) := by
  intro j
  induction j with
  | zero =>
    intro a _ hok _
    simpa using retryAux_ok op ctx a v hok
  | succ j ih =>
    intro a hf hok hb
    have h0 : op a = Except.error e := by
      have := hf 0 (Nat.succ_pos j)
      simpa using this
    have hgo : (ErrorHandler.classifyError e ctx).shouldRetry = true ∧
        a + 1 < (ErrorHandler.classifyError e ctx).maxRetries := ⟨hr, by omega⟩
    rw [retryAux_error_continue op ctx a e h0 hgo]
    have hf' : ∀ k, k < j → op (a + 1 + k) = Except.error e := by
      intro k hk
      have := hf (k + 1) (by omega)
      have harith : a + (k + 1) = a + 1 + k := by omega
      rwa [harith] at this
    have hok' : op (a + 1 + j) = Except.ok v := by
      have harith : a + (j + 1) = a + 1 + j := by omega
      rwa [harith] at hok
    rw [ih (a + 1) hf' hok' (by omega)]
    refine Prod.ext rfl ?_
    simp only [List.range_succ_eq_map, List.map_cons, List.map_map]
    refine congrArg₂ List.cons (by norm_num) ?_
    apply List.map_congr_left
    intro k _
    have harith : a + 1 + k + 1 = a + (k + 1) + 1 := by omega
    simp [Function.comp, harith]

/-- If the operation fails with the same retryable error on every attempt
up to the budget (`a + j + 1 = maxRetries`), `retryAux` propagates the
original error after the geometric backoff delays. -/
theorem retryAux_error_exhausts {α} (op : Nat → Except ErrorHandler.JsError α)
    (ctx : ErrorHandler.ErrCtx) (e : ErrorHandler.JsError)
    (hr : (ErrorHandler.classifyError e ctx).shouldRetry = true) :
    ∀ j a, (∀ k, k ≤ j → op (a + k) = Except.error e) →
      a + j + 1 = (ErrorHandler.classifyError e ctx).maxRetries →
      ErrorHandler.retryAux op ctx a =
        (Except.error e, (List.range j).map (fun k => 2 ^ (a + k + 1) * 1000)) := by
  intro j
  induction j with
  | zero =>
    intro a hf hb
    have h0 : op a = Except.error e := by
      have := hf 0 (Nat.le_refl 0)
      simpa using this
    have hstop : ¬ ((ErrorHandler.classifyError e ctx).shouldRetry = true ∧
        a + 1 < (ErrorHandler.classifyError e ctx).maxRetries) := by
      intro hcon
      omega
    simpa using retryAux_error_stop op ctx a e h0 hstop
  | succ j ih =>
    intro a hf hb
    have h0 : op a = Except.error e := by
      have := hf 0 (Nat.zero_le _)
      simpa using this
    have hgo : (ErrorHandler.classifyError e ctx).shouldRetry = true ∧
        a + 1 < (ErrorHandler.classifyError e ctx).maxRetries := ⟨hr, by omega⟩
    rw [retryAux_error_continue op ctx a e h0 hgo]
    have hf' : ∀ k, k ≤ j → op (a + 1 + k) = Except.error e := by
      intro k hk
      have := hf (k + 1) (by omega)
      have harith : a + (k + 1) = a + 1 + k := by omega
      rwa [harith] at this
    rw [ih (a + 1) hf' (by omega)]
    refine Prod.ext rfl ?_
    simp only [List.range_succ_eq_map, List.map_cons, List.map_map]
    refine congrArg₂ List.cons (by norm_num) ?_
    apply List.map_congr_left
    intro k _
    have harith : a + 1 + k + 1 = a + (k + 1) + 1 := by omega
    simp [Function.comp, harith]

/-- C7 (counterexample): with the retryable `timeout` classification
(`shouldRetry=true`, `maxRetries=2`), an operation that fails
`maxRetries` times and would succeed on the next attempt does not return
the success value: the guard `attempt >= maxRetries` propagates the
original error after the second failure (one backoff of 2s), and the
succeeding third call never happens. -/
theorem C7_retry_counterexample :
    ErrorHandler.retryOperation
        (fun k => if k < 2 then Except.error ⟨"timeout"⟩ else Except.ok (42 : Nat)) {}
      = (Except.error ⟨"timeout"⟩, [2000]) ∧
    ((fun k => if k < 2 then Except.error ⟨"timeout"⟩ else Except.ok (42 : Nat) :
        Nat → Except ErrorHandler.JsError Nat)) 2
      = Except.ok 42 ∧
    (ErrorHandler.classifyError ⟨"timeout"⟩ {}).shouldRetry = true ∧
    (ErrorHandler.classifyError ⟨"timeout"⟩ {}).maxRetries = 2 := by
  refine ⟨?_, rfl, by decide, by decide⟩
  have hf : ∀ k, k ≤ 1 →
      (fun k => if k < 2 then Except.error (⟨"timeout"⟩ : ErrorHandler.JsError)
        else Except.ok (42 : Nat)) (0 + k) = Except.error ⟨"timeout"⟩ := by
    intro k hk
    interval_cases k <;> rfl
  have hb : 0 + 1 + 1 = (ErrorHandler.classifyError ⟨"timeout"⟩ {}).maxRetries := by
    decide
  have h := retryAux_error_exhausts
    (fun k => if k < 2 then Except.error (⟨"timeout"⟩ : ErrorHandler.JsError)
      else Except.ok (42 : Nat))
    {} ⟨"timeout"⟩ (by decide) 1 0 hf hb
  simpa [ErrorHandler.retryOperation, List.range_succ, List.range_zero] using h

/-- C7 (amended): an operation whose failure classifies with
`shouldRetry=false` is attempted exactly once with the original error
propagated unchanged (no backoff); an operation failing with a retryable
error on attempts `1..maxRetries-1` and succeeding on attempt
`maxRetries` returns the success value, having waited `2^attempt`
seconds before each retry (2s, 4s, ...); and an operation failing
`maxRetries` times propagates the original error unchanged after
`maxRetries - 1` such waits. -/
theorem C7_retry_amended :
    (∀ {α : Type} (op : Nat → Except ErrorHandler.JsError α)
        (ctx : ErrorHandler.ErrCtx) (e : ErrorHandler.JsError),
      op 0 = Except.error e →
      (ErrorHandler.classifyError e ctx).shouldRetry = false →
      ErrorHandler.retryOperation op ctx = (Except.error e, [])) ∧
    (∀ {α : Type} (op : Nat → Except ErrorHandler.JsError α)
        (ctx : ErrorHandler.ErrCtx) (e : ErrorHandler.JsError) (v : α),
      (ErrorHandler.classifyError e ctx).shouldRetry = true →
      (∀ k, k < (ErrorHandler.classifyError e ctx).maxRetries - 1 →
        op k = Except.error e) →
      op ((ErrorHandler.classifyError e ctx).maxRetries - 1) = Except.ok v →
      ErrorHandler.retryOperation op ctx =
        (Except.ok v,
          (List.range ((ErrorHandler.classifyError e ctx).maxRetries - 1)).map
            (fun k => 2 ^ (k + 1) * 1000))) ∧
    (∀ {α : Type} (op : Nat → Except ErrorHandler.JsError α)
        (ctx : ErrorHandler.ErrCtx) (e : ErrorHandler.JsError),
      (ErrorHandler.classifyError e ctx).shouldRetry = true →
      (∀ k, k < (ErrorHandler.classifyError e ctx).maxRetries →
        op k = Except.error e) →
      ErrorHandler.retryOperation op ctx =
        (Except.error e,
          (List.range ((ErrorHandler.classifyError e ctx).maxRetries - 1)).map
            (fun k => 2 ^ (k + 1) * 1000))) := by
  refine ⟨?_, ?_, ?_⟩
  · intro α op ctx e h0 hnr
    have hstop : ¬ ((ErrorHandler.classifyError e ctx).shouldRetry = true ∧
        0 + 1 < (ErrorHandler.classifyError e ctx).maxRetries) := by
      intro hcon
      rw [hnr] at hcon
      exact Bool.false_ne_true hcon.1
    exact retryAux_error_stop op ctx 0 e h0 hstop
  · intro α op ctx e v hr hf hok
    have hm := classify_retryable_maxRetries e ctx hr
    have hf' : ∀ k, k < (ErrorHandler.classifyError e ctx).maxRetries - 1 →
        op (0 + k) = Except.error e := by
      intro k hk
      have harith : 0 + k = k := by omega
      rw [harith]
      exact hf k hk
    have hok' : op (0 + ((ErrorHandler.classifyError e ctx).maxRetries - 1))
        = Except.ok v := by
      have harith : 0 + ((ErrorHandler.classifyError e ctx).maxRetries - 1)
          = (ErrorHandler.classifyError e ctx).maxRetries - 1 := by omega
      rw [harith]
      exact hok
    have h := retryAux_ok_after_failures op ctx e v hr
      ((ErrorHandler.classifyError e ctx).maxRetries - 1) 0 hf' hok' (by omega)
    rw [ErrorHandler.retryOperation, h]
    refine Prod.ext rfl ?_
    apply List.map_congr_left
    intro k _
    have harith : 0 + k + 1 = k + 1 := by omega
    rw [harith]
  · intro α op ctx e hr hf
    have hm := classify_retryable_maxRetries e ctx hr
    have hf' : ∀ k, k ≤ (ErrorHandler.classifyError e ctx).maxRetries - 1 →
        op (0 + k) = Except.error e := by
      intro k hk
      have harith : 0 + k = k := by omega
      rw [harith]
      exact hf k (by omega)
    have h := retryAux_error_exhausts op ctx e hr
      ((ErrorHandler.classifyError e ctx).maxRetries - 1) 0 hf' (by omega)
    rw [ErrorHandler.retryOperation, h]
    refine Prod.ext rfl ?_
    apply List.map_congr_left
    intro k _
    have harith : 0 + k + 1 = k + 1 := by omega
    rw [harith]

/-- Witness for C7 (amended): a non-retryable `scanned` failure is
attempted once with the original error propagated and no backoff; a
`timeout` failure followed by a success returns the success value after
one 2s wait; constant `timeout` failures exhaust the budget of 2 with
one 2s wait and the original error propagated. -/
theorem C7_retry_amended_witness :
    ErrorHandler.retryOperation
        (fun _ => (Except.error ⟨"scanned"⟩ : Except ErrorHandler.JsError Nat))
        ({} : ErrorHandler.ErrCtx)
      = (Except.error ⟨"scanned"⟩, ([] : List Nat)) ∧
    ErrorHandler.retryOperation
        (fun k => if k = 0 then Except.error ⟨"timeout"⟩ else Except.ok (7 : Nat)) {}
      = (Except.ok 7, [2000]) ∧
    ErrorHandler.retryOperation
        (fun _ => (Except.error ⟨"timeout"⟩ : Except ErrorHandler.JsError Nat))
        ({} : ErrorHandler.ErrCtx)
      = (Except.error ⟨"timeout"⟩, [2000]) := by
  refine ⟨?_, ?_, ?_⟩
  · exact C7_retry_amended.1
      (fun _ => (Except.error ⟨"scanned"⟩ : Except ErrorHandler.JsError Nat))
      {} ⟨"scanned"⟩ rfl (by decide)
  · have hf : ∀ k, k < (ErrorHandler.classifyError ⟨"timeout"⟩ {}).maxRetries - 1 →
        (fun k => if k = 0 then Except.error (⟨"timeout"⟩ : ErrorHandler.JsError)
          else Except.ok (7 : Nat)) k = Except.error ⟨"timeout"⟩ := by
      intro k hk
      have h2 : (ErrorHandler.classifyError (⟨"timeout"⟩ : ErrorHandler.JsError)
          {}).maxRetries = 2 := by decide
      rw [h2] at hk
      interval_cases k
      rfl
    have h := C7_retry_amended.2.1
      (fun k => if k = 0 then Except.error ⟨"timeout"⟩ else Except.ok (7 : Nat))
      {} ⟨"timeout"⟩ 7 (by decide) hf rfl
    simpa [(by decide : (ErrorHandler.classifyError (⟨"timeout"⟩ : ErrorHandler.JsError)
      {}).maxRetries = 2), List.range_succ, List.range_zero] using h
  · have h := C7_retry_amended.2.2
      (fun _ => (Except.error ⟨"timeout"⟩ : Except ErrorHandler.JsError Nat)) {} ⟨"timeout"⟩
      (by decide) (fun k _ => rfl)
    simpa [(by decide : (ErrorHandler.classifyError (⟨"timeout"⟩ : ErrorHandler.JsError)
      {}).maxRetries = 2), List.range_succ, List.range_zero] using h
